import Mathlib

/-!
Shallow embedding of the extraction and deduplication engine of
Lost-Photos-Found (`src/lostphotosfound/server.py`), together with proofs
settling the specification claims about it.

External collaborators (the IMAP session, `hashlib`, `mimetypes`,
`email` parsing, and the charset decoder) are modelled as inputs or
stand-in functions; the control flow of `Server._filter_messages`,
`Server._save_part`, `Server._cleanup` and `Server.lostphotosfound`
is translated directly from the source.
-/

/-- Boolean list-membership test via `BEq`, used to model Python's
`in` checks over `self._index.keys()` and `self._hashes.keys()`. -/
def memB [BEq α] (a : α) : List α → Bool
  | [] => false
  | x :: l => x == a || memB a l

theorem memB_iff_mem [BEq α] [LawfulBEq α] (a : α) (l : List α) :
    memB a l = true ↔ a ∈ l := by
  induction l with
  | nil => simp [memB]
  | cons x l ih =>
    simp [memB, ih, Bool.or_eq_true, beq_iff_eq]
    constructor
    · rintro (h | h)
      · exact Or.inl h.symm
      · exact Or.inr h
    · rintro (h | h)
      · exact Or.inl h.symm
      · exact Or.inr h

/-- Boolean list-prefix test (character lists). -/
def pfxB : List Char → List Char → Bool
  | [], _ => true
  | _ :: _, [] => false
  | a :: as, b :: bs => a == b && pfxB as bs

theorem pfxB_self_append (l t : List Char) : pfxB l (l ++ t) = true := by
  induction l with
  | nil => rfl
  | cons a as ih => simp [pfxB, ih]

/-- Boolean substring test on character lists (left-to-right scan). -/
def subAux (needle : List Char) : List Char → Bool
  | [] => pfxB needle []
  | c :: rest => pfxB needle (c :: rest) || subAux needle rest

/-- Python's `needle in hay` substring test on strings, as used by
`'None' in header_filename` and `'image/' not in part.get_content_type()`. -/
def substrB (needle hay : String) : Bool :=
  subAux needle.data hay.data

theorem subAux_self_append (n t : List Char) : subAux n (n ++ t) = true := by
  cases n with
  | nil =>
    induction t with
    | nil => rfl
    | cons c r ih => simp [subAux, pfxB]
  | cons a as =>
    simp only [List.cons_append, subAux]
    rw [show a :: as.append t = (a :: as) ++ t from rfl, pfxB_self_append]
    simp

/-- The fixed punctuation set stripped by `Server._save_part`
(line 174 of `server.py`): `!"#$&'*+/;<>?[\]^` backtick `{|}~`. -/
def punctChars : List Char :=
  ['!', '\"', '#', '$', '&', '\x27', '*', '+', '/', ';', '<', '>',
   '?', '[', '\\', ']', '^', '\x60', '\x7b', '|', '\x7d', '~']

/-- `header_filename.translate(table)` with a table deleting every
character of `punct` (lines 174-176 of `server.py`). -/
def sanitize (s : String) : String :=
  String.mk (s.data.filter (fun c => !(memB c punctChars)))

/-- Python's `s.split('name=')` specialised to the one separator the
source uses (line 167 of `server.py`): left-to-right, non-overlapping. -/
def splitNameEq : List Char → List (List Char)
  | [] => [[]]
  | 'n' :: 'a' :: 'm' :: 'e' :: '=' :: rest => [] :: splitNameEq rest
  | c :: rest =>
    match splitNameEq rest with
    | [] => [[c]]
    | h :: t => (c :: h) :: t

/-- `part.get('Content-Type').split('name=')[-1].replace('"', '')`
(line 167 of `server.py`). -/
def ctNameParam (ct : String) : String :=
  String.mk (((splitNameEq ct.data).getLastD []).filter (fun c => !(c == '\"')))

/-- Zero-padding of `'attachment-%06d.data' % (self.seq)`. -/
def pad6 (n : Nat) : String :=
  String.mk (List.replicate (6 - (Nat.repr n).length) '0') ++ Nat.repr n

/-- The synthesized fallback name of line 170 of `server.py`. -/
def synthName (seq : Nat) : String :=
  "attachment-" ++ pad6 seq ++ ".data"

/-- Python string truthiness: the empty string is the only falsy string. -/
def pyStrFalsy (s : String) : Bool := s == ""

/-- Filename resolution of `Server._save_part` (lines 159-171 of
`server.py`), taking the already-decoded header filename. Mirrors the
source: if `'None' in header_filename`, take the content-type's
`name=` parameter; otherwise evaluate `header_filename[0][0]`, which
raises `IndexError` on an empty string, and for a nonempty string is
its first character (never falsy and never `None`), so the `elif`
synthesizing branch falls through to keeping the decoded name. -/
def resolveName (seq : Nat) (decoded : String) (ctHeader : String) :
    Except String (String × Nat) :=
  if substrB "None" decoded then
    Except.ok (ctNameParam ctHeader, seq)
  else
    match decoded.data with
    | [] => Except.error "IndexError: string index out of range"
    | c :: _ =>
      if pyStrFalsy (String.mk [c]) then
        Except.ok (synthName seq, seq + 1)
      else
        Except.ok (decoded, seq)

/-- Search criteria built by `Server._filter_messages` (lines 131-135 of
`server.py`): the image criteria string, with a truthy user-defined
search string placed in front by `'{} {}'.format(self._search, criteria)`. -/
def imageCriteria (mimelist : String) : String :=
  "has:attachment filename:(" ++ mimelist ++ ")"

/-- Full criteria construction of `Server._filter_messages`. -/
def buildCriteria (search : String) (mimelist : String) : String :=
  let criteria := imageCriteria mimelist
  if search == "" then criteria else search ++ " " ++ criteria

/-- One node of a message's MIME tree as `mail.walk()` yields it.
`maintype`/`subtype` are the parsed content type returned by
`get_content_maintype()`/`get_content_type()`; `ctHeader` is the raw
`Content-Type` header returned by `part.get('Content-Type')`;
`filenameHeader` is `part.get_filename()`; `payload` is the result of
`part.get_payload(decode=True)`, `none` when that call raises. -/
structure MPart where
  maintype : String
  subtype : String
  ctHeader : String
  disposition : Option String
  filenameHeader : Option String
  payload : Option (List Nat)
deriving DecidableEq, Repr

/-- `part.get_content_type()`: the parsed `maintype/subtype` pair. -/
def contentTypeOf (p : MPart) : String :=
  p.maintype ++ "/" ++ p.subtype

/-- A fetched and parsed message. `parts` is the flattened depth-first
`mail.walk()` sequence (container parts included); `senderAddr` is
`email.utils.parseaddr(mail['From'])[1]`; the six date fields are the
calendar fields of `parsedate` applied to the `Date` header. -/
structure Mail where
  contentMaintype : String
  parts : List MPart
  senderAddr : String
  dateY : Nat
  dateMo : Nat
  dateD : Nat
  dateH : Nat
  dateMi : Nat
  dateS : Nat
deriving DecidableEq, Repr

/-- Run configuration taken from the `Server` constructor arguments. -/
structure Config where
  username : String
  useIndex : Bool
  useFolders : Bool
deriving DecidableEq, Repr

/-- Mutable run state: the Processed-Message Index keys, the saved files
(path, byte content), the Content Hash Store keys, and the per-run
filename synthesis counter `self.seq`. -/
structure RunState where
  index : List String
  fs : List (String × List Nat)
  hashes : List (List Nat)
  seq : Nat
deriving DecidableEq, Repr

/-- The external mailbox session: per message handle, the durable
`X-GM-MSGID` fetch and the `RFC822` body fetch, `none` modelling the
protocol round-trip raising an exception. -/
structure Session where
  msgidOf : Nat → Option String
  bodyOf : Nat → Option Mail

/-- Modelled from the spec: stands in for the external
`hashlib.sha1(payload).hexdigest()` call. The spec requires only that
identical payload bytes yield identical hashes; the digest is modelled
as the ideal collision-free digest (the payload itself as the key). -/
def payloadDigest (payload : List Nat) : List Nat := payload

/-- Lookup in the saved-files map (`os.path.isfile` / file content). -/
def fsLookup : List (String × List Nat) → String → Option (List Nat)
  | [], _ => none
  | (k, v) :: rest, q => if k == q then some v else fsLookup rest q

/-- `os.remove`: drop the entry for a path. -/
def fsRemove : List (String × List Nat) → String → List (String × List Nat)
  | [], _ => []
  | (k, v) :: rest, q =>
    if k == q then fsRemove rest q else (k, v) :: fsRemove rest q

/-- File creation or overwrite at a path (`open(saved, 'wb')` /
`imagefile.write`). -/
def fsSet (fs : List (String × List Nat)) (q : String) (v : List Nat) :
    List (String × List Nat) :=
  (q, v) :: fsRemove fs q

/-- `os.path.expanduser('~/LostPhotosFound')`, kept symbolic. -/
def userRoot : String := "~/LostPhotosFound"

/-- The save directory of `Server._save_part` (lines 189-195 of
`server.py`): `<user-root>/<username>`, plus the sender segment when
folder grouping is on. -/
def destDir (cfg : Config) (sender : String) : String :=
  if cfg.useFolders then
    userRoot ++ "/" ++ cfg.username ++ "/" ++ sender
  else
    userRoot ++ "/" ++ cfg.username

/-- The `Y-M-D_H-M-S_` prefix of line 180 of `server.py`, unpadded
`%s` formatting of the `parsedate` fields. -/
def dateStamp (mail : Mail) : String :=
  Nat.repr mail.dateY ++ "-" ++ Nat.repr mail.dateMo ++ "-" ++
  Nat.repr mail.dateD ++ "_" ++ Nat.repr mail.dateH ++ "-" ++
  Nat.repr mail.dateMi ++ "-" ++ Nat.repr mail.dateS ++ "_"

/-- Filename resolution of `_save_part` applied to a part: the declared
filename header with the `"__unnamed__"` substitution of lines 159-161,
decoded by the external charset decoder `dec`, then `resolveName`. -/
def resolvedFilename (dec : String → String) (seq : Nat) (part : MPart) :
    Except String (String × Nat) :=
  let name0 := match part.filenameHeader with
    | none => "__unnamed__"
    | some n => n
  resolveName seq (dec name0) part.ctHeader

/-- The full destination path for a resolved raw name: save directory,
date stamp, sanitized name (lines 173-203 of `server.py`). -/
def destPath (cfg : Config) (mail : Mail) (sender : String)
    (rawName : String) : String :=
  destDir cfg sender ++ "/" ++ (dateStamp mail ++ sanitize rawName)

/-- `Server._save_part` (lines 146-223 of `server.py`). Returns the
updated state and `some message` when the call raises. Control flow:
resolve and sanitize the filename, build the dated destination path,
skip entirely if a file exists there; otherwise `open(saved, 'wb')`
creates the file, the payload is decoded (raising aborts with the
truncated file left behind), and the content hash gates the write:
a known hash removes the just-created file, a new hash writes the
payload and records the hash. -/
def savePart (cfg : Config) (dec : String → String) (st : RunState)
    (part : MPart) (mail : Mail) (sender : String) :
    RunState × Option String :=
  match resolvedFilename dec st.seq part with
  | Except.error e => (st, some e)
  | Except.ok (rawName, seq') =>
    let st1 : RunState := { st with seq := seq' }
    let saved := destPath cfg mail sender rawName
    if (fsLookup st1.fs saved).isSome then
      (st1, none)
    else
      let fsOpened := fsSet st1.fs saved []
      match part.payload with
      | none =>
        ({ st1 with fs := fsOpened },
         some ("Failed when downloading attachment: " ++ saved))
      | some payload =>
        let h := payloadDigest payload
        if memB h st1.hashes then
          ({ st1 with fs := fsRemove fsOpened saved }, none)
        else
          ({ st1 with fs := fsSet fsOpened saved payload,
                      hashes := h :: st1.hashes }, none)

/-- Part-eligibility gate of the walk loop in `Server.lostphotosfound`
(lines 278-287 of `server.py`): skip multipart containers; the
`Content-Disposition` branch of line 283 is a no-op `pass`; skip parts
whose content type does not contain `image/`. -/
def partEligible (p : MPart) : Bool :=
  if p.maintype == "multipart" then
    false
  else
    -- `if part.get('Content-Disposition') is None: pass` has no effect
    if !(substrB "image/" (contentTypeOf p)) then
      false
    else
      true

/-- The parts of a message that reach `_save_part`, in walk order. -/
def eligibleParts (mail : Mail) : List MPart :=
  mail.parts.filter partEligible

/-- Sender resolution of lines 274-276 of `server.py`. -/
def resolveSender (mail : Mail) : String :=
  if mail.senderAddr == "" then "unknown_sender" else mail.senderAddr

/-- Sequential `_save_part` application over a part list, stopping at
the first raised exception as Python does. -/
def runParts (cfg : Config) (dec : String → String) (mail : Mail)
    (sender : String) (st : RunState) :
    List MPart → RunState × Option String
  | [] => (st, none)
  | p :: ps =>
    match savePart cfg dec st p mail sender with
    | (st', none) => runParts cfg dec mail sender st' ps
    | (st', some e) => (st', some e)

/-- Per-message body of the loop in `Server.lostphotosfound`
(lines 240-293 of `server.py`): fetch the durable `X-GM-MSGID`
(failure raises), skip when the index gate holds, fetch and parse the
body, skip non-multipart messages without touching the index, resolve
the sender, run `_save_part` over eligible parts in walk order, and
only then record the message id in the index. -/
def processMessage (cfg : Config) (sess : Session) (dec : String → String)
    (st : RunState) (msg : Nat) : RunState × Option String :=
  match sess.msgidOf msg with
  | none => (st, some "Could not fetch the message ID, server did not respond")
  | some msgid =>
    if cfg.useIndex && memB msgid st.index then
      (st, none)
    else
      match sess.bodyOf msg with
      | none => (st, some "RFC822 fetch failed")
      | some mail =>
        if !(mail.contentMaintype == "multipart") then
          (st, none)
        else
          let sender := resolveSender mail
          match runParts cfg dec mail sender st (eligibleParts mail) with
          | (st', none) => ({ st' with index := msgid :: st'.index }, none)
          | (st', some e) => (st', some e)

/-- The message loop of `Server.lostphotosfound`, short-circuiting at
the first uncaught exception. -/
def runLoop (cfg : Config) (sess : Session) (dec : String → String)
    (st : RunState) : List Nat → RunState × Option String
  | [] => (st, none)
  | m :: ms =>
    match processMessage cfg sess dec st m with
    | (st', none) => runLoop cfg sess dec st' ms
    | (st', some e) => (st', some e)

/-- Observable outcome of a whole `Server.lostphotosfound` call:
final state, the raised error if any, and whether `Server._cleanup`
(the flush-and-close of both persistent stores) was invoked. -/
structure Outcome where
  state : RunState
  err : Option String
  cleanupRan : Bool
deriving DecidableEq, Repr

/-- `Server.lostphotosfound` (lines 235-295 of `server.py`): the
message loop followed by `self._cleanup()`; an exception propagates
out of the method before the cleanup line is reached. -/
def lostphotosfound (cfg : Config) (sess : Session) (dec : String → String)
    (st : RunState) (msgs : List Nat) : Outcome :=
  match runLoop cfg sess dec st msgs with
  | (st', none) => { state := st', err := none, cleanupRan := true }
  | (st', some e) => { state := st', err := some e, cleanupRan := false }

/-- The state at the start of a run: empty stores, counter unset. -/
def initialState : RunState :=
  { index := [], fs := [], hashes := [], seq := 0 }

theorem singleton_not_falsy (c : Char) : pyStrFalsy (String.mk [c]) = false := by
  simp only [pyStrFalsy, beq_eq_false_iff_ne, ne_eq, String.ext_iff]
  simp

theorem resolveName_ok_seq {seq : Nat} {d ct n : String} {s' : Nat}
    (h : resolveName seq d ct = Except.ok (n, s')) : s' = seq := by
  unfold resolveName at h
  by_cases hn : substrB "None" d = true
  · rw [if_pos hn] at h
    cases h
    rfl
  · rw [if_neg hn] at h
    cases hd : d.data with
    | nil => rw [hd] at h; cases h
    | cons c rest =>
      rw [hd] at h
      simp [singleton_not_falsy] at h
      exact h.2.symm

/-- Claim C3 (corrected): the search criteria of `_filter_messages` is
built with a non-empty caller-supplied filter string PREPENDED before
the image-extension criteria, not appended after it. -/
theorem criteria_prepends_user_filter (s m : String) (h : s ≠ "") :
    buildCriteria s m = s ++ " " ++ imageCriteria m := by
  simp [buildCriteria, h]

theorem criteria_prepends_user_filter_witness :
    ("from:bob" : String) ≠ "" ∧
    buildCriteria "from:bob" "jpg" = "from:bob" ++ " " ++ imageCriteria "jpg" :=
  ⟨by decide, criteria_prepends_user_filter "from:bob" "jpg" (by decide)⟩

/-- Counterexample to claim C3 as stated: with user filter `from:bob`
and mime list `jpg`, the criteria string is not the image criteria with
the user filter appended after it. -/
theorem criteria_append_claim_cex :
    buildCriteria "from:bob" "jpg" ≠ imageCriteria "jpg" ++ " " ++ "from:bob" := by
  decide

/-- Claim C4 (corrected): sanitization strips exactly the fixed
punctuation set of line 174; on `My "Photo"! (2020).jpg` it strips the
quote and the exclamation mark but leaves the parentheses, which are
not in the set, yielding `My Photo (2020).jpg`. -/
theorem sanitize_example_keeps_parens :
    sanitize "My \"Photo\"! (2020).jpg" = "My Photo (2020).jpg" := by
  decide

/-- Counterexample to claim C4 as stated: the parentheses of
`My "Photo"! (2020).jpg` survive sanitization, so the sanitized form
does not strip `(` and `)`. -/
theorem sanitize_paren_not_stripped_cex :
    memB '(' (sanitize "My \"Photo\"! (2020).jpg").data = true ∧
    memB ')' (sanitize "My \"Photo\"! (2020).jpg").data = true := by
  decide

/-- Claim C5 (confirmed): any part whose MIME top-level type is `image`
passes the eligibility gate of the walk loop, for every subtype and
every `Content-Disposition` value (present, absent, inline or
attachment): disposition never gates eligibility. -/
theorem image_part_eligible_any_disposition (sub ctH : String)
    (disp fn : Option String) (pl : Option (List Nat)) :
    partEligible { maintype := "image", subtype := sub, ctHeader := ctH,
                   disposition := disp, filenameHeader := fn,
                   payload := pl } = true := by
  have hsub : substrB "image/"
      (contentTypeOf { maintype := "image", subtype := sub, ctHeader := ctH,
                       disposition := disp, filenameHeader := fn,
                       payload := pl }) = true := by
    show subAux "image/".data ("image/".data ++ sub.data) = true
    exact subAux_self_append _ _
  simp [partEligible, hsub]

/-- Claim C10 (confirmed): whenever the decoded declared filename
contains the substring `None` anywhere, the declared name is discarded
and the name is taken from the `Content-Type` header's `name=`
parameter instead. -/
theorem none_substring_discards_declared_name (seq : Nat) (d ct : String)
    (h : substrB "None" d = true) :
    resolveName seq d ct = Except.ok (ctNameParam ct, seq) := by
  simp [resolveName, h]

theorem none_substring_discards_declared_name_witness :
    substrB "None" "None-beach.jpg" = true ∧
    resolveName 0 "None-beach.jpg" "image/jpeg; name=\"beach.jpg\"" =
      Except.ok (ctNameParam "image/jpeg; name=\"beach.jpg\"", 0) ∧
    ctNameParam "image/jpeg; name=\"beach.jpg\"" = "beach.jpg" :=
  ⟨by decide,
   none_substring_discards_declared_name 0 "None-beach.jpg"
     "image/jpeg; name=\"beach.jpg\"" (by decide),
   by decide⟩

/-- Claim C8 (corrected): the filename resolution is not a three-step
fallback chain. If the decoded value contains `None`, the content-type
`name=` parameter is used with no further fallback even when no such
parameter exists; for any other non-empty decoded value the decoded
value itself is used; an empty decoded value raises `IndexError`. The
synthesized `attachment-NNNNNN.data` branch is unreachable and the
per-run counter is never advanced. -/
theorem resolveName_branch_structure (seq : Nat) (d ct : String) :
    (substrB "None" d = true →
      resolveName seq d ct = Except.ok (ctNameParam ct, seq)) ∧
    (substrB "None" d = false → d ≠ "" →
      resolveName seq d ct = Except.ok (d, seq)) ∧
    (substrB "None" d = false → d = "" →
      resolveName seq d ct =
        Except.error "IndexError: string index out of range") := by
  refine ⟨fun h => by simp [resolveName, h], fun h hne => ?_, fun h he => ?_⟩
  · unfold resolveName
    rw [if_neg (by simp [h])]
    cases hd : d.data with
    | nil =>
      exact absurd (String.ext_iff.mpr (by simp [hd])) hne
    | cons c rest =>
      simp [singleton_not_falsy]
  · unfold resolveName
    rw [if_neg (by simp [h]), he]

theorem resolveName_branch_structure_witness :
    substrB "None" "Nonexyz" = true ∧
    resolveName 5 "Nonexyz" "ct-without-param" =
      Except.ok (ctNameParam "ct-without-param", 5) ∧
    substrB "None" "photo.png" = false ∧ ("photo.png" : String) ≠ "" ∧
    resolveName 5 "photo.png" "whatever" = Except.ok ("photo.png", 5) :=
  ⟨by decide,
   (resolveName_branch_structure 5 "Nonexyz" "ct-without-param").1 (by decide),
   by decide, by decide,
   (resolveName_branch_structure 5 "photo.png" "whatever").2.1 (by decide)
     (by decide)⟩

/-- Counterexample to claim C8 as stated: for the decoded placeholder
value `None` and a `Content-Type` header `image/png` carrying no
usable `name=` parameter, the resolution returns the content-type
derived string rather than falling back to the synthesized
`attachment-000000.data` name. -/
theorem placeholder_no_synth_fallback_cex :
    resolveName 0 "None" "image/png" = Except.ok ("image/png", 0) ∧
    ("image/png" : String) ≠ synthName 0 :=
  ⟨rfl, by decide⟩

theorem fsLookup_fsRemove (fs : List (String × List Nat)) (k q : String) :
    fsLookup (fsRemove fs k) q = if k == q then none else fsLookup fs q := by
  induction fs with
  | nil => cases h : (k == q) <;> simp [fsRemove, fsLookup, h]
  | cons e rest ih =>
    obtain ⟨a, b⟩ := e
    simp only [fsRemove]
    by_cases hak : a = k
    · subst hak
      rw [if_pos (by simp), ih]
      by_cases haq : a = q
      · subst haq; simp [fsLookup]
      · simp [fsLookup, haq]
    · rw [if_neg (by simpa using hak)]
      simp only [fsLookup]
      by_cases haq : a = q
      · subst haq
        have hkq : (k == a) = false := by
          simp [beq_eq_false_iff_ne]
          exact fun hx => hak hx.symm
        simp [hkq]
      · simp [haq, ih]

theorem fsLookup_fsSet (fs : List (String × List Nat)) (k : String)
    (v : List Nat) (q : String) :
    fsLookup (fsSet fs k v) q = if k == q then some v else fsLookup fs q := by
  simp only [fsSet, fsLookup]
  by_cases h : k = q
  · simp [h]
  · simp [h, fsLookup_fsRemove]

theorem fsRemove_of_lookup_none {fs : List (String × List Nat)} {k : String}
    (h : fsLookup fs k = none) : fsRemove fs k = fs := by
  induction fs with
  | nil => rfl
  | cons e rest ih =>
    obtain ⟨a, b⟩ := e
    simp only [fsLookup] at h
    by_cases hak : a = k
    · simp [hak] at h
    · have htail : fsLookup rest k = none := by simpa [hak] using h
      simp only [fsRemove]
      rw [ih htail]
      simp [hak]

theorem resolvedFilename_ok_seq {dec : String → String} {seq : Nat}
    {part : MPart} {n : String} {s' : Nat}
    (h : resolvedFilename dec seq part = Except.ok (n, s')) : s' = seq :=
  resolveName_ok_seq h

/-- Claim C6 (confirmed): when the filename resolves and a file already
exists at the computed destination path, `_save_part` performs no
write, no payload decode and no hash-store mutation, and raises no
error: the state is returned unchanged. -/
theorem existing_dest_path_skips_all (cfg : Config) (dec : String → String)
    (st : RunState) (part : MPart) (mail : Mail) (sender : String)
    (rawName : String) (seq' : Nat)
    (hres : resolvedFilename dec st.seq part = Except.ok (rawName, seq'))
    (hfile : (fsLookup st.fs (destPath cfg mail sender rawName)).isSome = true) :
    savePart cfg dec st part mail sender = (st, none) := by
  have hseq : seq' = st.seq := resolvedFilename_ok_seq hres
  subst hseq
  unfold savePart
  rw [hres]
  simp only []
  rw [if_pos hfile]

/-- Claim C9 (confirmed): every file that existed before a `_save_part`
call is still present with the same bytes afterwards, on the skip path,
the duplicate path, the write path and the error path alike: creation,
truncation and the duplicate-branch removal touch only paths that did
not exist when the call started. -/
theorem savePart_preserves_existing_files (cfg : Config)
    (dec : String → String) (st : RunState) (part : MPart) (mail : Mail)
    (sender : String) (q : String) (c : List Nat)
    (h : fsLookup st.fs q = some c) :
    fsLookup (savePart cfg dec st part mail sender).1.fs q = some c := by
  unfold savePart
  cases hres : resolvedFilename dec st.seq part with
  | error e => simpa using h
  | ok pr =>
    obtain ⟨rawName, seq'⟩ := pr
    simp only []
    by_cases hf : (fsLookup st.fs (destPath cfg mail sender rawName)).isSome = true
    · rw [if_pos hf]
      simpa using h
    · rw [if_neg hf]
      have hnone : fsLookup st.fs (destPath cfg mail sender rawName) = none := by
        cases hx : fsLookup st.fs (destPath cfg mail sender rawName) with
        | none => rfl
        | some v => rw [hx] at hf; simp at hf
      have hsq : (destPath cfg mail sender rawName == q) = false := by
        rw [beq_eq_false_iff_ne]
        intro hx
        rw [hx, h] at hnone
        cases hnone
      cases part.payload with
      | none => simpa [fsLookup_fsSet, hsq] using h
      | some payload =>
        by_cases hh : memB (payloadDigest payload) st.hashes = true
        · simpa [hh, fsLookup_fsRemove, fsLookup_fsSet, hsq] using h
        · simpa [hh, fsLookup_fsSet, hsq] using h

/-- Identity charset decoder used by the concrete scenarios. -/
def decId : String → String := fun s => s

/-- Concrete configuration for the scenarios. -/
def cfg0 : Config := { username := "u", useIndex := true, useFolders := false }

/-- An `image/jpeg` attachment part with a given name and payload. -/
def imgPart (fn : String) (pl : List Nat) : MPart :=
  { maintype := "image", subtype := "jpeg", ctHeader := "image/jpeg",
    disposition := some "attachment", filenameHeader := some fn,
    payload := some pl }

/-- A multipart message holding the given parts, dated 2012-10-28. -/
def mkMail (ps : List MPart) : Mail :=
  { contentMaintype := "multipart", parts := ps, senderAddr := "a@b.c",
    dateY := 2012, dateMo := 10, dateD := 28,
    dateH := 19, dateMi := 15, dateS := 22 }

def part0 : MPart := imgPart "a.jpg" [1]

def mail0 : Mail := mkMail [part0]

def stC6 : RunState :=
  { index := [], fs := [(destPath cfg0 mail0 "s" "a.jpg", [9])],
    hashes := [[9]], seq := 0 }

theorem existing_dest_path_skips_all_witness :
    resolvedFilename decId stC6.seq part0 = Except.ok ("a.jpg", 0) ∧
    (fsLookup stC6.fs (destPath cfg0 mail0 "s" "a.jpg")).isSome = true ∧
    savePart cfg0 decId stC6 part0 mail0 "s" = (stC6, none) :=
  ⟨rfl, by decide,
   existing_dest_path_skips_all cfg0 decId stC6 part0 mail0 "s" "a.jpg" 0
     rfl (by decide)⟩

def stC9 : RunState :=
  { index := [], fs := [("keep.jpg", [7])], hashes := [], seq := 0 }

theorem savePart_preserves_existing_files_witness :
    fsLookup stC9.fs "keep.jpg" = some [7] ∧
    fsLookup (savePart cfg0 decId stC9 part0 mail0 "s").1.fs "keep.jpg" =
      some [7] :=
  ⟨by decide,
   savePart_preserves_existing_files cfg0 decId stC9 part0 mail0 "s"
     "keep.jpg" [7] (by decide)⟩

/-- Claim C1 (corrected): a fetched message whose top-level content type
is not multipart is skipped before any part is walked AND before the
index write of line 293: zero attachments are extracted and the durable
identifier is NOT recorded in the Processed-Message Index, so the
message will be re-fetched on the next run. The state is unchanged. -/
theorem nonmultipart_skipped_without_indexing (cfg : Config) (sess : Session)
    (dec : String → String) (st : RunState) (msg : Nat) (msgid : String)
    (mail : Mail)
    (hid : sess.msgidOf msg = some msgid)
    (hgate : (cfg.useIndex && memB msgid st.index) = false)
    (hbody : sess.bodyOf msg = some mail)
    (hmt : (mail.contentMaintype == "multipart") = false) :
    processMessage cfg sess dec st msg = (st, none) := by
  unfold processMessage
  rw [hid]
  simp [hgate, hbody, hmt]

/-- A session whose only message is a plain-text (non-multipart) mail
with durable identifier 101. -/
def sessC1 : Session :=
  { msgidOf := fun _ => some "101",
    bodyOf := fun _ => some
      { contentMaintype := "text", parts := [], senderAddr := "a@b.c",
        dateY := 2012, dateMo := 10, dateD := 28,
        dateH := 19, dateMi := 15, dateS := 22 } }

/-- Counterexample to claim C1 as stated: after processing the
non-multipart message 101 from a fresh state, the Processed-Message
Index does not contain "101" — the message is not marked processed. -/
theorem nonmultipart_not_recorded_cex :
    (processMessage cfg0 sessC1 decId initialState 0).1.index = [] ∧
    memB "101" (processMessage cfg0 sessC1 decId initialState 0).1.index =
      false := by
  decide

theorem nonmultipart_skipped_without_indexing_witness :
    sessC1.msgidOf 0 = some "101" ∧
    (cfg0.useIndex && memB "101" initialState.index) = false ∧
    (((sessC1.bodyOf 0).getD (mkMail [])).contentMaintype == "multipart") =
      false ∧
    processMessage cfg0 sessC1 decId initialState 0 =
      (initialState, none) :=
  ⟨rfl, by decide, by decide,
   nonmultipart_skipped_without_indexing cfg0 sessC1 decId initialState 0
     "101" ((sessC1.bodyOf 0).getD (mkMail [])) rfl (by decide) rfl
     (by decide)⟩

/-- Claim C2 (corrected): `Server._cleanup` — the flush-and-close of the
Processed-Message Index and the Content Hash Store — runs exactly when
the run completes normally; on every fatal error the exception
propagates out of `lostphotosfound` before the cleanup line, so the
stores are NOT flushed and closed on the fatal path. -/
theorem cleanup_iff_no_fatal_error (cfg : Config) (sess : Session)
    (dec : String → String) (st : RunState) (msgs : List Nat) :
    (lostphotosfound cfg sess dec st msgs).cleanupRan = true ↔
    (lostphotosfound cfg sess dec st msgs).err = none := by
  unfold lostphotosfound
  cases hr : runLoop cfg sess dec st msgs with
  | mk st' e => cases e <;> simp

/-- A session whose message-id fetch fails, raising the fatal
`Could not fetch the message ID` error. -/
def sessFail : Session :=
  { msgidOf := fun _ => none, bodyOf := fun _ => none }

/-- Counterexample to claim C2 as stated: on a fatal message-id fetch
error the run aborts with `cleanupRan = false` — the persistent stores
are not flushed and closed on the fatal path. -/
theorem fatal_error_skips_cleanup_cex :
    (lostphotosfound cfg0 sessFail decId initialState [0]).err.isSome = true ∧
    (lostphotosfound cfg0 sessFail decId initialState [0]).cleanupRan =
      false := by
  decide

theorem lookup_none_not_key {fs : List (String × List Nat)} {k : String}
    (h : fsLookup fs k = none) : k ∉ fs.map Prod.fst := by
  induction fs with
  | nil => simp
  | cons e rest ih =>
    obtain ⟨a, b⟩ := e
    simp only [fsLookup] at h
    by_cases hak : a = k
    · simp [hak] at h
    · have htail : fsLookup rest k = none := by simpa [hak] using h
      simp only [List.map_cons, List.mem_cons]
      rintro (hx | hx)
      · exact hak hx.symm
      · exact ih htail hx

theorem lookup_some_of_mem {fs : List (String × List Nat)} {q : String}
    {c : List Nat} (hk : (fs.map Prod.fst).Nodup) (hm : (q, c) ∈ fs) :
    fsLookup fs q = some c := by
  induction fs with
  | nil => simp at hm
  | cons e rest ih =>
    obtain ⟨a, b⟩ := e
    simp only [List.map_cons, List.nodup_cons] at hk
    rcases List.mem_cons.mp hm with hx | hx
    · obtain ⟨ha, hb⟩ := Prod.mk.injEq .. ▸ hx.symm
      simp [fsLookup, ha.symm, hb]
    · have haq : ¬(a = q) := by
        intro hiq
        subst hiq
        exact hk.1 (List.mem_map.mpr ⟨(a, c), hx, rfl⟩)
      have haq' : (a == q) = false := beq_eq_false_iff_ne.mpr haq
      simpa [fsLookup, haq'] using ih hk.2 hx

/-- Invariant of the saved-files map and the Content Hash Store:
paths are unique, file contents are pairwise distinct, hash entries are
unique, and a hash entry exists exactly for the payloads saved on disk. -/
def StoreInv (st : RunState) : Prop :=
  (st.fs.map Prod.fst).Nodup ∧
  (st.fs.map Prod.snd).Nodup ∧
  st.hashes.Nodup ∧
  (∀ p : List Nat, p ∈ st.hashes ↔ ∃ q, fsLookup st.fs q = some p)

theorem savePart_inv {cfg : Config} {dec : String → String} {st : RunState}
    {part : MPart} {mail : Mail} {sender : String} {st' : RunState}
    (hInv : StoreInv st)
    (h : savePart cfg dec st part mail sender = (st', none)) : StoreInv st' := by
  unfold savePart at h
  cases hres : resolvedFilename dec st.seq part with
  | error e => rw [hres] at h; simp at h
  | ok pr =>
    obtain ⟨rawName, seq'⟩ := pr
    rw [hres] at h
    simp only [] at h
    by_cases hf : (fsLookup st.fs (destPath cfg mail sender rawName)).isSome = true
    · rw [if_pos hf] at h
      obtain ⟨hst, -⟩ := Prod.mk.injEq .. ▸ h
      rw [← hst]
      exact hInv
    · rw [if_neg hf] at h
      have hnone : fsLookup st.fs (destPath cfg mail sender rawName) = none := by
        cases hx : fsLookup st.fs (destPath cfg mail sender rawName) with
        | none => rfl
        | some v => rw [hx] at hf; simp at hf
      have hrm : fsRemove st.fs (destPath cfg mail sender rawName) = st.fs :=
        fsRemove_of_lookup_none hnone
      cases hp : part.payload with
      | none => rw [hp] at h; simp at h
      | some payload =>
        rw [hp] at h
        simp only [] at h
        by_cases hh : memB (payloadDigest payload) st.hashes = true
        · rw [if_pos hh] at h
          have hfs : fsRemove (fsSet st.fs (destPath cfg mail sender rawName) [])
              (destPath cfg mail sender rawName) = st.fs := by
            simp [fsSet, fsRemove, hrm]
          obtain ⟨hst, -⟩ := Prod.mk.injEq .. ▸ h
          rw [← hst]
          simpa [StoreInv, hfs] using hInv
        · rw [if_neg hh] at h
          have hfs : fsSet (fsSet st.fs (destPath cfg mail sender rawName) [])
              (destPath cfg mail sender rawName) payload =
              (destPath cfg mail sender rawName, payload) :: st.fs := by
            simp [fsSet, fsRemove, hrm]
          obtain ⟨hst, -⟩ := Prod.mk.injEq .. ▸ h
          rw [← hst]
          obtain ⟨hk, hc, hhn, hiff⟩ := hInv
          have hpay : payload ∉ st.hashes := by
            intro hx
            exact hh ((memB_iff_mem (payloadDigest payload) st.hashes).mpr hx)
          refine ⟨?_, ?_, ?_, ?_⟩
          · simp only [hfs, List.map_cons, List.nodup_cons]
            exact ⟨lookup_none_not_key hnone, hk⟩
          · simp only [hfs, List.map_cons, List.nodup_cons]
            refine ⟨?_, hc⟩
            intro hmem
            obtain ⟨e, hme, hesnd⟩ := List.mem_map.mp hmem
            obtain ⟨q0, c0⟩ := e
            have : fsLookup st.fs q0 = some payload := by
              rw [show c0 = payload from hesnd] at hme
              exact lookup_some_of_mem hk hme
            exact hpay ((hiff payload).mpr ⟨q0, this⟩)
          · simp only [List.nodup_cons]
            exact ⟨hpay, hhn⟩
          · intro p
            simp only [hfs, List.mem_cons]
            constructor
            · rintro (hx | hx)
              · refine ⟨destPath cfg mail sender rawName, ?_⟩
                simp [fsLookup, hx, payloadDigest]
              · obtain ⟨q0, hq0⟩ := (hiff p).mp hx
                refine ⟨q0, ?_⟩
                have hqd : ¬(destPath cfg mail sender rawName = q0) := by
                  intro hc0
                  rw [← hc0, hnone] at hq0
                  cases hq0
                simp [fsLookup, if_neg (by simpa using hqd)]
                exact hq0
            · rintro ⟨q0, hq0⟩
              by_cases hqd : destPath cfg mail sender rawName = q0
              · left
                rw [← hqd] at hq0
                simp [fsLookup] at hq0
                simpa [payloadDigest] using hq0.symm
              · right
                refine (hiff p).mpr ⟨q0, ?_⟩
                simpa [fsLookup, if_neg (by simpa using hqd)] using hq0

theorem runParts_inv {cfg : Config} {dec : String → String} {mail : Mail}
    {sender : String} : ∀ {ps : List MPart} {st st' : RunState},
    StoreInv st → runParts cfg dec mail sender st ps = (st', none) →
    StoreInv st'
  | [], st, st', hInv, h => by
    simp only [runParts] at h
    obtain ⟨hst, -⟩ := Prod.mk.injEq .. ▸ h
    rw [← hst]
    exact hInv
  | p :: ps, st, st', hInv, h => by
    simp only [runParts] at h
    cases hsp : savePart cfg dec st p mail sender with
    | mk st1 e =>
      rw [hsp] at h
      cases e with
      | none => exact runParts_inv (savePart_inv hInv hsp) h
      | some msg => simp at h

theorem processMessage_inv {cfg : Config} {sess : Session}
    {dec : String → String} {st st' : RunState} {m : Nat}
    (hInv : StoreInv st)
    (h : processMessage cfg sess dec st m = (st', none)) : StoreInv st' := by
  unfold processMessage at h
  cases hid : sess.msgidOf m with
  | none => rw [hid] at h; simp at h
  | some msgid =>
    rw [hid] at h
    simp only [] at h
    by_cases hgate : (cfg.useIndex && memB msgid st.index) = true
    · rw [if_pos hgate] at h
      obtain ⟨hst, -⟩ := Prod.mk.injEq .. ▸ h
      rw [← hst]
      exact hInv
    · rw [if_neg hgate] at h
      cases hbody : sess.bodyOf m with
      | none => rw [hbody] at h; simp at h
      | some mail =>
        rw [hbody] at h
        simp only [] at h
        by_cases hmt : (mail.contentMaintype == "multipart") = true
        · rw [if_neg (by simp [hmt])] at h
          cases hrp : runParts cfg dec mail (resolveSender mail) st
              (eligibleParts mail) with
          | mk st1 e =>
            rw [hrp] at h
            cases e with
            | none =>
              obtain ⟨hst, -⟩ := Prod.mk.injEq .. ▸ h
              rw [← hst]
              have h1 := runParts_inv hInv hrp
              simpa [StoreInv] using h1
            | some msg => simp at h
        · rw [if_pos (by simpa using hmt)] at h
          obtain ⟨hst, -⟩ := Prod.mk.injEq .. ▸ h
          rw [← hst]
          exact hInv

theorem runLoop_inv {cfg : Config} {sess : Session} {dec : String → String} :
    ∀ {msgs : List Nat} {st st' : RunState},
    StoreInv st → runLoop cfg sess dec st msgs = (st', none) → StoreInv st'
  | [], st, st', hInv, h => by
    simp only [runLoop] at h
    obtain ⟨hst, -⟩ := Prod.mk.injEq .. ▸ h
    rw [← hst]
    exact hInv
  | m :: ms, st, st', hInv, h => by
    simp only [runLoop] at h
    cases hpm : processMessage cfg sess dec st m with
    | mk st1 e =>
      rw [hpm] at h
      cases e with
      | none => exact runLoop_inv (processMessage_inv hInv hpm) h
      | some msg => simp at h

/-- Claim C7 (corrected): in any completed run from a fresh state, no
two saved files contain byte-identical content, the Content Hash Store
is duplicate-free, and a hash entry for a payload exists exactly when a
file with that payload exists on disk: a pair of distinct messages with
byte-identical part payloads therefore yields AT MOST one Extracted
File and at most one hash entry for that payload, with a file present
iff the hash is recorded — but not always exactly one. -/
theorem run_content_dedup (cfg : Config) (sess : Session)
    (dec : String → String) (msgs : List Nat)
    (h : (runLoop cfg sess dec initialState msgs).2 = none) :
    ((runLoop cfg sess dec initialState msgs).1.fs.map Prod.snd).Nodup ∧
    (runLoop cfg sess dec initialState msgs).1.hashes.Nodup ∧
    (∀ p : List Nat,
      p ∈ (runLoop cfg sess dec initialState msgs).1.hashes ↔
      ∃ q, fsLookup (runLoop cfg sess dec initialState msgs).1.fs q = some p) := by
  have hInv0 : StoreInv initialState := by
    refine ⟨by simp [initialState], by simp [initialState], by simp [initialState], ?_⟩
    intro p
    simp [initialState, fsLookup]
  have heq : runLoop cfg sess dec initialState msgs =
      ((runLoop cfg sess dec initialState msgs).1, none) := by
    rw [← h]
  obtain ⟨-, h2, h3, h4⟩ := runLoop_inv hInv0 heq
  exact ⟨h2, h3, h4⟩

/-- Session for the content-dedup counterexample: message 0 carries
payload `[1]`, messages 1 and 2 each carry a part with byte-identical
payload `[2]`, and all three parts share the same date and declared
filename, hence the same destination path. -/
def sessC7 : Session :=
  { msgidOf := fun n => some (Nat.repr n),
    bodyOf := fun n =>
      match n with
      | 0 => some (mkMail [imgPart "a.jpg" [1]])
      | 1 => some (mkMail [imgPart "a.jpg" [2]])
      | 2 => some (mkMail [imgPart "a.jpg" [2]])
      | _ => none }

/-- Counterexample to claim C7 as stated: messages 1 and 2 are distinct
and each contains a part with byte-identical payload `[2]`, yet the
completed run saves ZERO files with that content and records no hash
entry for it, because the destination path of both parts was already
occupied by message 0's file with different content. -/
theorem shared_payload_zero_files_cex :
    (runLoop cfg0 sessC7 decId initialState [0, 1, 2]).2 = none ∧
    memB [2]
      ((runLoop cfg0 sessC7 decId initialState [0, 1, 2]).1.fs.map Prod.snd) =
      false ∧
    memB [2] (runLoop cfg0 sessC7 decId initialState [0, 1, 2]).1.hashes =
      false := by
  decide

/-- Session for the content-dedup witness: two distinct messages with
byte-identical payloads at distinct destination paths. -/
def sessC7w : Session :=
  { msgidOf := fun n => some (Nat.repr n),
    bodyOf := fun n =>
      match n with
      | 0 => some (mkMail [imgPart "a.jpg" [3]])
      | 1 => some (mkMail [imgPart "b.jpg" [3]])
      | _ => none }

theorem run_content_dedup_witness :
    (runLoop cfg0 sessC7w decId initialState [0, 1]).2 = none ∧
    (((runLoop cfg0 sessC7w decId initialState [0, 1]).1.fs.map Prod.snd).Nodup ∧
     (runLoop cfg0 sessC7w decId initialState [0, 1]).1.hashes.Nodup ∧
     (∀ p : List Nat,
       p ∈ (runLoop cfg0 sessC7w decId initialState [0, 1]).1.hashes ↔
       ∃ q, fsLookup (runLoop cfg0 sessC7w decId initialState [0, 1]).1.fs q =
         some p)) :=
  ⟨by decide, run_content_dedup cfg0 sessC7w decId [0, 1] (by decide)⟩
